import Mathlib

/-!
Shallow embedding of the Rekall plugin framework core
(rekall-core/rekall/plugin.py) and proofs about its behaviour.

Python dicts are modelled as association lists over `String` keys with
insertion-order update semantics (`dictUpd`); Python `None` / falsy values
are modelled with `Option`; raised exceptions are modelled with
`Except PluginFault`.
-/

namespace Rekall

/-- Kinds of exception raised by the plugin framework
(plugin.py defines InvalidArgs, PluginError; ValueError, TypeError,
KeyError and RuntimeError come from the Python runtime). -/
inductive PluginFault where
  | invalidArgs (msg : String)
  | pluginError (msg : String)
  | valueError (msg : String)
  | typeError (msg : String)
  | keyError (msg : String)
  | runtimeError (msg : String)
  deriving DecidableEq, Repr

/-- Lookup in a Python-dict model: first entry with the given key. -/
def dictLookup {α : Type} : List (String × α) → String → Option α
  | [], _ => none
  | (k, v) :: rest, key => if k = key then some v else dictLookup rest key

/-- Python `d[k] = v`: overwrite the value in place if the key exists,
otherwise append the new binding (insertion order preserved). -/
def dictUpd {α : Type} (d : List (String × α)) (k : String) (v : α) :
    List (String × α) :=
  if (dictLookup d k).isSome then
    d.map (fun p => if p.1 = k then (k, v) else p)
  else
    d ++ [(k, v)]

theorem dictLookup_nil {α : Type} (k : String) :
    dictLookup ([] : List (String × α)) k = none := rfl

theorem dictLookup_append {α : Type} (d e : List (String × α)) (k : String) :
    dictLookup (d ++ e) k =
      match dictLookup d k with
      | some v => some v
      | none => dictLookup e k := by
  induction d with
  | nil => simp [dictLookup]
  | cons p rest ih =>
    by_cases h : p.1 = k
    · simp [dictLookup, h]
    · simp [dictLookup, h, ih]

theorem dictLookup_map_overwrite {α : Type} (d : List (String × α))
    (k key : String) (v : α) (hne : key ≠ k) :
    dictLookup (d.map (fun p => if p.1 = k then (k, v) else p)) key =
      dictLookup d key := by
  induction d with
  | nil => rfl
  | cons p rest ih =>
    obtain ⟨a, b⟩ := p
    simp only [List.map_cons]
    by_cases h : a = k
    · rw [if_pos (show (a, b).1 = k from h)]
      have hkk : ¬(k = key) := fun hk => hne hk.symm
      have hak : ¬(a = key) := fun hk => hne (h ▸ hk).symm
      simp [dictLookup, hkk, hak, ih]
    · rw [if_neg (show ¬((a, b).1 = k) from h)]
      by_cases h2 : a = key
      · simp [dictLookup, h2]
      · simp [dictLookup, h2, ih]

theorem dictLookup_map_overwrite_self {α : Type} (d : List (String × α))
    (k : String) (v : α) (hk : (dictLookup d k).isSome) :
    dictLookup (d.map (fun p => if p.1 = k then (k, v) else p)) k = some v := by
  induction d with
  | nil => simp [dictLookup] at hk
  | cons p rest ih =>
    obtain ⟨a, b⟩ := p
    simp only [List.map_cons]
    by_cases h : a = k
    · rw [if_pos (show (a, b).1 = k from h)]
      simp [dictLookup]
    · rw [if_neg (show ¬((a, b).1 = k) from h)]
      simp [dictLookup, h] at hk ⊢
      exact ih hk

/-- Updating a fresh key appends the binding at the end. -/
theorem dictUpd_fresh {α : Type} (d : List (String × α)) (k : String) (v : α)
    (h : dictLookup d k = none) : dictUpd d k v = d ++ [(k, v)] := by
  simp [dictUpd, h]

/-- Lookup after an update. -/
theorem dictLookup_dictUpd {α : Type} (d : List (String × α)) (k key : String)
    (v : α) :
    dictLookup (dictUpd d k v) key =
      if key = k then some v else dictLookup d key := by
  by_cases hsome : (dictLookup d k).isSome
  · by_cases hkey : key = k
    · subst hkey
      simp [dictUpd, hsome, dictLookup_map_overwrite_self d key v hsome]
    · simp [dictUpd, hsome, dictLookup_map_overwrite d k key v hkey, hkey]
  · have hnone : dictLookup d k = none := by
      cases h : dictLookup d k with
      | none => rfl
      | some v' => rw [h] at hsome; simp at hsome
    rw [dictUpd_fresh d k v hnone, dictLookup_append]
    by_cases hkey : key = k
    · subst hkey
      simp [hnone, dictLookup]
    · cases h : dictLookup d key with
      | none => simp [dictLookup, hkey, Ne.symm hkey]
      | some v' => simp [hkey]

/-- Membership in the key list of a dict coincides with lookup success. -/
theorem mem_keys_iff_lookup_isSome {α : Type} (d : List (String × α))
    (k : String) : k ∈ d.map Prod.fst ↔ (dictLookup d k).isSome := by
  induction d with
  | nil => simp [dictLookup]
  | cons p rest ih =>
    by_cases h : p.1 = k
    · simp [dictLookup, h]
    · simp [dictLookup, h, ih, Ne.symm h]

/-- A concrete structural type (a Python class object), modelled opaquely. -/
structure ConcreteType where
  id : Nat
  deriving DecidableEq, Repr, Inhabited

/-- The declared type of a column: either a concrete (literal) type object,
or the string name of a profile-resolved type (TypedProfileCommand.reflect
distinguishes them by isinstance checks on type and basestring). -/
inductive ColType where
  | concrete (t : ConcreteType)
  | byName (s : String)
  deriving DecidableEq, Repr

/-- One column specification dict, with the optional keys that
PluginHeader.__init__ and reflect read via column.get: cname, name, type.
A Python column dict that has any of these keys is non-empty, hence truthy. -/
structure Column where
  cname : Option String := none
  name : Option String := none
  type : Option ColType := none
  deriving DecidableEq, Repr

/-- Modelled from the spec: the profile/type system is an external
collaborator; the only part the shown core reads is
profile.object_classes.get(name), a mapping from type names to concrete
type objects. -/
structure Profile where
  object_classes : List (String × ConcreteType)
  deriving DecidableEq, Repr

/-- Modelled from the spec: the Session is an external collaborator whose
profile resource is nullable, lazily resolved, and cached in the parameter
store under "profile_obj"; autodetection runs once on first read and its
result is cached. profile_autodetect is what that one-shot autodetection
would find (none when the profile cannot be autodetected). -/
structure Session where
  profile_obj : Option Profile
  profile_autodetect : Option Profile
  deriving DecidableEq, Repr

/-- Modelled from the spec: session.HasParameter("profile_obj") checks the
cached parameter store without triggering autodetection. -/
def Session.HasParameterProfileObj (s : Session) : Bool :=
  s.profile_obj.isSome

/-- Modelled from the spec: reading session.profile returns the cached
profile if present, else performs one-shot autodetection and caches its
result. Returns the value read together with the updated session. -/
def Session.readProfile (s : Session) : Option Profile × Session :=
  match s.profile_obj with
  | some p => (some p, s)
  | none => (s.profile_autodetect, { s with profile_obj := s.profile_autodetect })

/-- Modelled from the spec: assigning session.profile installs the profile
into the session state (it forms part of the session's state). -/
def Session.setProfile (s : Session) (p : Profile) : Session :=
  { s with profile_obj := some p }

/-- Command.is_active: the base class is active for every session. -/
def Command.is_active (session : Session) : Bool :=
  true

/-- ProfileCommand.is_active: when PROFILE_REQUIRED, the conjunction of the
base predicate (always true, evaluated first) and session.profile != None;
reading session.profile may trigger autodetection, so the possibly-updated
session is returned alongside the boolean. Without PROFILE_REQUIRED it is
unconditionally true and the session is untouched. -/
def ProfileCommand.is_active (PROFILE_REQUIRED : Bool) (session : Session) :
    Bool × Session :=
  if PROFILE_REQUIRED then
    match Session.readProfile session with
    | (p, session2) => (Command.is_active session && p.isSome, session2)
  else
    (true, session)

/-- A keyword-argument value handed to Command.__init__; for the base class
only the session argument is meaningful, and Python None is Option.none. -/
abbrev KwVal := Option Session

/-- The value of kwargs.pop("session", None): the session argument if one
was passed, else Python None. -/
def popSession (kwargs : List (String × KwVal)) : KwVal :=
  match dictLookup kwargs "session" with
  | some v => v
  | none => none

/-- The kwargs left over after popping "session". -/
def otherKwargs (kwargs : List (String × KwVal)) : List (String × KwVal) :=
  kwargs.filter (fun kv => if kv.1 = "session" then false else true)

/-- Command.__init__: pops "session" from kwargs (defaulting to None),
raises InvalidArgs if any keyword arguments remain, then raises InvalidArgs
if the session is None; otherwise the instance holds the session. -/
def Command.init (kwargs : List (String × KwVal)) : Except PluginFault Session :=
  match otherKwargs kwargs with
  | _ :: _ => Except.error (PluginFault.invalidArgs "Invalid arguments")
  | [] =>
    match popSession kwargs with
    | none => Except.error (PluginFault.invalidArgs "A session must be provided.")
    | some s => Except.ok s

/-- ProfileCommand.__init__ after the base constructor has run: an explicit
profile override is installed into the session; then, if the session has
the "profile_obj" parameter cached, the instance takes the session profile;
else, when PROFILE_REQUIRED, reading session.profile forces autodetection
and a still-absent profile raises PluginError. Returns the instance's
profile attribute (none when the attribute is never assigned) and the
updated session. -/
def ProfileCommand.init (PROFILE_REQUIRED : Bool) (profile : Option Profile)
    (session : Session) : Except PluginFault (Option Profile × Session) :=
  let session1 :=
    match profile with
    | some p => Session.setProfile session p
    | none => session
  if Session.HasParameterProfileObj session1 then
    match Session.readProfile session1 with
    | (p, session2) => Except.ok (p, session2)
  else if PROFILE_REQUIRED then
    match Session.readProfile session1 with
    | (p, session2) =>
      match p with
      | none => Except.error (PluginFault.pluginError
          "Profile could not detected. Try specifying one explicitly.")
      | some prof => Except.ok (some prof, session2)
  else
    Except.ok (none, session1)

/-- The constructed state of a PluginHeader: the declared column list kept
as header, plus the by_cname and by_name dicts. -/
structure PluginHeader where
  header : List Column
  by_cname : List (String × Column)
  by_name : List (String × Column)
  deriving DecidableEq, Repr

/-- The loop of PluginHeader.__init__ over the column dicts: a missing or
falsy (empty-string) cname raises ValueError; a cname already present in
by_cname raises ValueError (the stored column dict is always non-empty,
hence truthy); otherwise the column is recorded under its cname, and under
its human name too when that is truthy. -/
def headerLoop : List Column → List (String × Column) → List (String × Column) →
    Except PluginFault (List (String × Column) × List (String × Column))
  | [], bc, bn => Except.ok (bc, bn)
  | c :: rest, bc, bn =>
    match c.cname with
    | none => Except.error (PluginFault.valueError
        "Plugins declaring table headers ahead of time MUST specify cname for each column.")
    | some s =>
      if s = "" then
        Except.error (PluginFault.valueError
          "Plugins declaring table headers ahead of time MUST specify cname for each column.")
      else if (dictLookup bc s).isSome then
        Except.error (PluginFault.valueError ("Duplicate cname " ++ s))
      else
        headerLoop rest (dictUpd bc s c)
          (match c.name with
           | none => bn
           | some n => if n = "" then bn else dictUpd bn n c)

/-- PluginHeader.__init__: runs the construction loop starting from empty
dicts and stores the column list as header. -/
def PluginHeader.init (columns : List Column) : Except PluginFault PluginHeader :=
  match headerLoop columns [] [] with
  | Except.error e => Except.error e
  | Except.ok (bc, bn) => Except.ok ⟨columns, bc, bn⟩

/-- PluginHeader.all_names: the union of the by_cname keys and the by_name
keys (a Python set; modelled as a list read up to membership). -/
def PluginHeader.all_names (h : PluginHeader) : List String :=
  h.by_cname.map Prod.fst ++ h.by_name.map Prod.fst

/-- PluginHeader.find_column: lookup by cname first, falling back to the
human name (by_cname.get(name, by_name.get(name))). -/
def PluginHeader.find_column (h : PluginHeader) (name : String) : Option Column :=
  match dictLookup h.by_cname name with
  | some c => some c
  | none => dictLookup h.by_name name

/-- The loop of PluginHeader.dictify: walks the row positionally, binding
header[idx]["cname"] to each value. A row longer than the header is an
IndexError and a column dict without a cname key a KeyError, both modelled
as none. -/
def dictifyLoop {V : Type} : List Column → List V → List (String × V) →
    Option (List (String × V))
  | _, [], acc => some acc
  | [], _ :: _, _ => none
  | c :: cs, v :: vs, acc =>
    match c.cname with
    | none => none
    | some s => dictifyLoop cs vs (dictUpd acc s v)

/-- PluginHeader.dictify: builds the row dict from an empty accumulator. -/
def PluginHeader.dictify {V : Type} (h : PluginHeader) (row : List V) :
    Option (List (String × V)) :=
  dictifyLoop h.header row []

/-- TypedProfileCommand.collect_as_dicts applied to the row sequence that
collect() yields: dictify each row, preserving order; a dictify failure is
a raised exception, modelled as none for the whole sequence. -/
def collect_as_dicts {V : Type} (h : PluginHeader) :
    List (List V) → Option (List (List (String × V)))
  | [] => some []
  | r :: rs =>
    match h.dictify r, collect_as_dicts h rs with
    | some d, some ds => some (d :: ds)
    | _, _ => none

/-- One call made on the renderer by TypedProfileCommand.render. -/
inductive RenderOp (V : Type) where
  | table_header (h : PluginHeader)
  | table_row (values : List V)
  deriving DecidableEq, Repr

/-- The loop of TypedProfileCommand.render: appends one table_row call per
collected row to the trace of renderer calls. -/
def renderLoop {V : Type} : List (List V) → List (RenderOp V) → List (RenderOp V)
  | [], acc => acc
  | r :: rs, acc => renderLoop rs (acc ++ [RenderOp.table_row r])

/-- TypedProfileCommand.render applied to the rows collect() yields: emits
table_header(self.table_header) and then table_row(*row) for each row. -/
def render {V : Type} (h : PluginHeader) (rows : List (List V)) :
    List (RenderOp V) :=
  renderLoop rows [RenderOp.table_header h]

/-- TypedProfileCommand.reflect: looks the member up in by_cname (raising
KeyError when absent; stored column dicts are truthy), then returns the
literal type if the declared type is a type object, None for a missing or
falsy type, and the profile's object_classes resolution for a (non-empty)
string type name. -/
def reflect (h : PluginHeader) (profile : Profile) (member : String) :
    Except PluginFault (Option ConcreteType) :=
  match dictLookup h.by_cname member with
  | none => Except.error (PluginFault.keyError ("Plugin has no column " ++ member))
  | some column =>
    match column.type with
    | some (ColType.concrete t) => Except.ok (some t)
    | none => Except.ok none
    | some (ColType.byName s) =>
      if s = "" then Except.ok none
      else Except.ok (dictLookup profile.object_classes s)

/-- Producer.produce applied to the rows collect() yields: yields row[0]
for each row in order; an empty row is an IndexError, modelled as none. -/
def produce {V : Type} : List (List V) → Option (List V)
  | [] => some []
  | r :: rs =>
    match r.head?, produce rs with
    | some v, some vs => some (v :: vs)
    | _, _ => none

/-- A registered plugin class, as GetActivePlugin sees it: its activation
predicate against a session. -/
structure PluginClass where
  plugin_name : Option String
  is_active : Session → Bool

/-- Modelled from the spec: config.CommandMetadata is a derived, read-only
snapshot of one plugin class's declarations; GetActivePlugin only uses its
plugin_cls back-reference. -/
structure CommandMetadata where
  plugin_cls : PluginClass

/-- The metadata list stored in the database under a plugin name
(self.db.get(plugin_name, [])). -/
def dbEntries (db : List (String × List CommandMetadata)) (plugin_name : String) :
    List CommandMetadata :=
  match dictLookup db plugin_name with
  | some l => l
  | none => []

/-- The results list built by GetActivePlugin's loop: the metadata stored
under plugin_name whose class is active for the session. -/
def activeResults (db : List (String × List CommandMetadata))
    (session : Session) (plugin_name : String) : List CommandMetadata :=
  (dbEntries db plugin_name).filter (fun m => m.plugin_cls.is_active session)

/-- PluginMetadataDatabase.GetActivePlugin: filters the metadata stored
under plugin_name down to those whose class is active for the session.
More than one active implementation raises RuntimeError; none active
returns the NoneObject sentinel, modelled as Option.none; exactly one is
returned as results[0]. -/
def GetActivePlugin (db : List (String × List CommandMetadata))
    (session : Session) (plugin_name : String) :
    Except PluginFault (Option CommandMetadata) :=
  if (activeResults db session plugin_name).length > 1 then
    Except.error (PluginFault.runtimeError
      ("Multiple plugin implementations for " ++ plugin_name))
  else
    Except.ok (activeResults db session plugin_name).head?

/-- Python truthiness of the optional cname string: present and non-empty. -/
def hasCname (c : Column) : Bool :=
  match c.cname with
  | none => false
  | some s => if s = "" then false else true

/-- The cname of a column, defaulting to the empty string when absent
(only used under hypotheses that make every cname present). -/
def cnameD (c : Column) : String :=
  c.cname.getD ""

/-- The dict that dictify produces for a row of full arity: each value
bound to the corresponding column's cname, in column order. -/
def rowDict {V : Type} (columns : List Column) (row : List V) :
    List (String × V) :=
  List.zipWith (fun c v => (cnameD c, v)) columns row

/-- Test that an Except value is a raised exception. -/
def isErr {ε α : Type} : Except ε α → Bool
  | Except.error _ => true
  | Except.ok _ => false

/-- Test that an Except value is a raised InvalidArgs exception. -/
def isInvalidArgsErr {α : Type} : Except PluginFault α → Bool
  | Except.error (PluginFault.invalidArgs _) => true
  | _ => false

/-- An example column: cname "offset", human name "Offset", declared type
the profile-resolved name "address". -/
def colOffset : Column :=
  { cname := some "offset", name := some "Offset",
    type := some (ColType.byName "address") }

/-- An example column: cname "name", human name "Name", no declared type. -/
def colName : Column :=
  { cname := some "name", name := some "Name", type := none }

/-- The example schema of the spec: columns offset and name. -/
def exColumns : List Column := [colOffset, colName]

/-- The PluginHeader built from exColumns (construction succeeds). -/
def exHeader : PluginHeader :=
  match PluginHeader.init exColumns with
  | Except.ok h => h
  | Except.error _ => ⟨[], [], []⟩

/-- An example profile defining the type name "address". -/
def exProfile : Profile := ⟨[("address", ⟨1⟩)]⟩

/-- An example session with a resolved profile. -/
def exSession : Session :=
  { profile_obj := some exProfile, profile_autodetect := none }

/-- An example session with no profile and no autodetectable profile. -/
def exSessionEmpty : Session :=
  { profile_obj := none, profile_autodetect := none }

/-- Example plugin class named foo whose activation predicate is always
false. -/
def exClassA : PluginClass :=
  { plugin_name := some "foo", is_active := fun _ => false }

/-- Example plugin class named foo whose activation predicate is always
true. -/
def exClassB : PluginClass :=
  { plugin_name := some "foo", is_active := fun _ => true }

/-- Metadata snapshot of exClassA. -/
def exMetaA : CommandMetadata := ⟨exClassA⟩

/-- Metadata snapshot of exClassB. -/
def exMetaB : CommandMetadata := ⟨exClassB⟩

/-- A second always-active metadata entry for the ambiguity scenario. -/
def exMetaB2 : CommandMetadata := ⟨{ plugin_name := some "foo", is_active := fun _ => true }⟩

/-- Metadata database with one inactive and one active foo implementation. -/
def exDb : List (String × List CommandMetadata) := [("foo", [exMetaA, exMetaB])]

/-- Metadata database with two active foo implementations. -/
def exDbBoth : List (String × List CommandMetadata) := [("foo", [exMetaB, exMetaB2])]

/-- Metadata database with no active foo implementation. -/
def exDbNone : List (String × List CommandMetadata) := [("foo", [exMetaA])]

/-- Columns with a duplicated cname. -/
def dupColumns : List Column := [{ cname := some "a" }, { cname := some "a" }]

/-- Columns where one column lacks a cname. -/
def missColumns : List Column := [{ name := some "X" }]

theorem init_ok_loop (columns : List Column) (h : PluginHeader)
    (hinit : PluginHeader.init columns = Except.ok h) :
    headerLoop columns [] [] = Except.ok (h.by_cname, h.by_name) ∧
    h.header = columns := by
  rw [PluginHeader.init] at hinit
  cases hl : headerLoop columns [] [] with
  | error e => rw [hl] at hinit; simp at hinit
  | ok p =>
    rw [hl] at hinit
    obtain ⟨bc, bn⟩ := p
    simp at hinit
    subst hinit
    exact ⟨rfl, rfl⟩

theorem headerLoop_ok_conditions (columns : List Column) :
    ∀ (bc bn bc2 bn2 : List (String × Column)),
    headerLoop columns bc bn = Except.ok (bc2, bn2) →
    (∀ c ∈ columns, hasCname c = true) ∧ (columns.map cnameD).Nodup ∧
    (∀ c ∈ columns, dictLookup bc (cnameD c) = none) := by
  induction columns with
  | nil => intro bc bn bc2 bn2 _; exact ⟨by simp, by simp, by simp⟩
  | cons c rest ih =>
    intro bc bn bc2 bn2 h
    cases hc : c.cname with
    | none => simp [headerLoop, hc] at h
    | some s =>
      by_cases hs : s = ""
      · simp [headerLoop, hc, hs] at h
      · by_cases hdup : (dictLookup bc s).isSome = true
        · simp [headerLoop, hc, hs, hdup] at h
        · have h2 : headerLoop rest (dictUpd bc s c)
              (match c.name with
               | none => bn
               | some n => if n = "" then bn else dictUpd bn n c) =
              Except.ok (bc2, bn2) := by
            simpa [headerLoop, hc, hs, hdup] using h
          obtain ⟨hall, hnd, hfr⟩ := ih _ _ _ _ h2
          have hcd : cnameD c = s := by simp [cnameD, hc]
          have hbc : dictLookup bc s = none := by
            cases hlk : dictLookup bc s with
            | none => rfl
            | some v => rw [hlk] at hdup; simp at hdup
          have hrest : ∀ x ∈ rest, ¬(cnameD x = s) ∧
              dictLookup bc (cnameD x) = none := by
            intro x hx
            have hfx := hfr x hx
            rw [dictLookup_dictUpd] at hfx
            by_cases hxs : cnameD x = s
            · simp [hxs] at hfx
            · exact ⟨hxs, by simpa [hxs] using hfx⟩
          refine ⟨?_, ?_, ?_⟩
          · intro x hx
            rcases List.mem_cons.mp hx with rfl | hx2
            · simp [hasCname, hc, hs]
            · exact hall x hx2
          · rw [List.map_cons, List.nodup_cons]
            refine ⟨?_, hnd⟩
            rw [hcd]
            intro hmem
            rcases List.mem_map.mp hmem with ⟨x, hx, hxeq⟩
            exact (hrest x hx).1 hxeq
          · intro x hx
            rcases List.mem_cons.mp hx with rfl | hx2
            · rw [hcd]; exact hbc
            · exact (hrest x hx2).2

theorem headerLoop_ok_of_conditions (columns : List Column) :
    ∀ (bc bn : List (String × Column)),
    (∀ c ∈ columns, hasCname c = true) → (columns.map cnameD).Nodup →
    (∀ c ∈ columns, dictLookup bc (cnameD c) = none) →
    ∃ bc2 bn2, headerLoop columns bc bn = Except.ok (bc2, bn2) := by
  induction columns with
  | nil => intro bc bn _ _ _; exact ⟨bc, bn, rfl⟩
  | cons c rest ih =>
    intro bc bn h1 h2 h3
    have hcn := h1 c (by simp)
    cases hc : c.cname with
    | none => simp [hasCname, hc] at hcn
    | some s =>
      have hs : ¬(s = "") := by
        intro hss
        rw [hasCname, hc] at hcn
        simp [hss] at hcn
      have hcd : cnameD c = s := by simp [cnameD, hc]
      have hbc : dictLookup bc s = none := hcd ▸ h3 c (by simp)
      have hmc : ¬(s ∈ rest.map cnameD) ∧ (rest.map cnameD).Nodup := by
        have hmc0 : (List.map cnameD (c :: rest)).Nodup := h2
        rw [List.map_cons, List.nodup_cons, hcd] at hmc0
        exact hmc0
      have hfr : ∀ x ∈ rest, dictLookup (dictUpd bc s c) (cnameD x) = none := by
        intro x hx
        rw [dictLookup_dictUpd]
        have hxs : ¬(cnameD x = s) := by
          intro hxx
          exact hmc.1 (hxx ▸ List.mem_map.mpr ⟨x, hx, rfl⟩)
        rw [if_neg hxs]
        exact h3 x (by simp [hx])
      obtain ⟨bc2, bn2, hok⟩ := ih (dictUpd bc s c)
        (match c.name with
         | none => bn
         | some n => if n = "" then bn else dictUpd bn n c)
        (fun x hx => h1 x (by simp [hx])) hmc.2 hfr
      exact ⟨bc2, bn2, by simp [headerLoop, hc, hs, hbc, hok]⟩

theorem headerLoop_keys (columns : List Column) :
    ∀ (bc bn bc2 bn2 : List (String × Column)),
    headerLoop columns bc bn = Except.ok (bc2, bn2) →
    ∀ k, ((dictLookup bc2 k).isSome = true ↔
            (dictLookup bc k).isSome = true ∨ ∃ c ∈ columns, c.cname = some k) ∧
         ((dictLookup bn2 k).isSome = true ↔
            (dictLookup bn k).isSome = true ∨
              ∃ c ∈ columns, c.name = some k ∧ ¬(k = "")) := by
  induction columns with
  | nil =>
    intro bc bn bc2 bn2 h k
    simp [headerLoop] at h
    obtain ⟨rfl, rfl⟩ := h
    simp
  | cons c rest ih =>
    intro bc bn bc2 bn2 h k
    cases hc : c.cname with
    | none => simp [headerLoop, hc] at h
    | some s =>
      by_cases hs : s = ""
      · simp [headerLoop, hc, hs] at h
      · by_cases hdup : (dictLookup bc s).isSome = true
        · simp [headerLoop, hc, hs, hdup] at h
        · cases hn : c.name with
          | none =>
            have h2 : headerLoop rest (dictUpd bc s c) bn =
                Except.ok (bc2, bn2) := by
              simpa [headerLoop, hc, hs, hdup, hn] using h
            have ihk := ih _ _ _ _ h2 k
            constructor
            · rw [ihk.1, dictLookup_dictUpd,
                List.exists_mem_cons_iff (fun x : Column => x.cname = some k) c rest]
              by_cases hks : k = s
              · subst hks
                simp only [if_pos rfl, Option.isSome_some, hc]
                tauto
              · have hck : ¬(c.cname = some k) := by
                  rw [hc]
                  intro he
                  exact hks (Option.some.inj he).symm
                rw [if_neg hks]
                simp [hck]
            · rw [ihk.2,
                List.exists_mem_cons_iff (fun x : Column => x.name = some k ∧ ¬(k = "")) c rest]
              have hck : ¬(c.name = some k ∧ ¬(k = "")) := by
                rw [hn]
                rintro ⟨he, _⟩
                cases he
              simp [hck]
          | some n =>
            by_cases hne : n = ""
            · have h2 : headerLoop rest (dictUpd bc s c) bn =
                  Except.ok (bc2, bn2) := by
                simpa [headerLoop, hc, hs, hdup, hn, hne] using h
              have ihk := ih _ _ _ _ h2 k
              constructor
              · rw [ihk.1, dictLookup_dictUpd,
                  List.exists_mem_cons_iff (fun x : Column => x.cname = some k) c rest]
                by_cases hks : k = s
                · subst hks
                  simp only [if_pos rfl, Option.isSome_some, hc]
                  tauto
                · have hck : ¬(c.cname = some k) := by
                    rw [hc]
                    intro he
                    exact hks (Option.some.inj he).symm
                  rw [if_neg hks]
                  simp [hck]
              · rw [ihk.2,
                  List.exists_mem_cons_iff (fun x : Column => x.name = some k ∧ ¬(k = "")) c rest]
                have hck : ¬(c.name = some k ∧ ¬(k = "")) := by
                  rw [hn]
                  rintro ⟨he, hke⟩
                  exact hke ((Option.some.inj he).symm.trans hne)
                simp [hck]
            · have h2 : headerLoop rest (dictUpd bc s c) (dictUpd bn n c) =
                  Except.ok (bc2, bn2) := by
                simpa [headerLoop, hc, hs, hdup, hn, hne] using h
              have ihk := ih _ _ _ _ h2 k
              constructor
              · rw [ihk.1, dictLookup_dictUpd,
                  List.exists_mem_cons_iff (fun x : Column => x.cname = some k) c rest]
                by_cases hks : k = s
                · subst hks
                  simp only [if_pos rfl, Option.isSome_some, hc]
                  tauto
                · have hck : ¬(c.cname = some k) := by
                    rw [hc]
                    intro he
                    exact hks (Option.some.inj he).symm
                  rw [if_neg hks]
                  simp [hck]
              · rw [ihk.2, dictLookup_dictUpd,
                  List.exists_mem_cons_iff (fun x : Column => x.name = some k ∧ ¬(k = "")) c rest]
                by_cases hkn : k = n
                · subst hkn
                  simp only [if_pos rfl, Option.isSome_some, hn]
                  constructor
                  · intro _
                    exact Or.inr (Or.inl ⟨by simp, hne⟩)
                  · intro _
                    simp
                · have hck : ¬(c.name = some k ∧ ¬(k = "")) := by
                    rw [hn]
                    rintro ⟨he, _⟩
                    exact hkn (Option.some.inj he).symm
                  rw [if_neg hkn]
                  simp [hck]

theorem rowDict_keys {V : Type} (columns : List Column) :
    ∀ (row : List V), row.length = columns.length →
    (rowDict columns row).map Prod.fst = columns.map cnameD := by
  induction columns with
  | nil =>
    intro row h
    cases row with
    | nil => simp [rowDict]
    | cons v vs => simp at h
  | cons c cs ih =>
    intro row h
    cases row with
    | nil => simp at h
    | cons v vs =>
      simp only [rowDict, List.zipWith_cons_cons, List.map_cons]
      have := ih vs (by simpa using h)
      rw [rowDict] at this
      rw [this]

theorem dictifyLoop_eq {V : Type} (columns : List Column) :
    ∀ (row : List V) (acc : List (String × V)),
    (∀ c ∈ columns, hasCname c = true) → (columns.map cnameD).Nodup →
    (∀ c ∈ columns, dictLookup acc (cnameD c) = none) →
    row.length = columns.length →
    dictifyLoop columns row acc = some (acc ++ rowDict columns row) := by
  induction columns with
  | nil =>
    intro row acc _ _ _ hlen
    cases row with
    | nil => simp [dictifyLoop, rowDict]
    | cons v vs => simp at hlen
  | cons c cs ih =>
    intro row acc h1 h2 h3 hlen
    cases row with
    | nil => simp at hlen
    | cons v vs =>
      have hcn := h1 c (by simp)
      cases hc : c.cname with
      | none => simp [hasCname, hc] at hcn
      | some s =>
        have hcd : cnameD c = s := by simp [cnameD, hc]
        have hacc : dictLookup acc s = none := hcd ▸ h3 c (by simp)
        have hupd : dictUpd acc s v = acc ++ [(s, v)] := dictUpd_fresh acc s v hacc
        have hmc : ¬(s ∈ cs.map cnameD) ∧ (cs.map cnameD).Nodup := by
          have hmc0 : (List.map cnameD (c :: cs)).Nodup := h2
          rw [List.map_cons, List.nodup_cons, hcd] at hmc0
          exact hmc0
        have hfr : ∀ x ∈ cs, dictLookup (acc ++ [(s, v)]) (cnameD x) = none := by
          intro x hx
          rw [dictLookup_append, h3 x (by simp [hx])]
          have hxs : ¬(cnameD x = s) := by
            intro hxx
            exact hmc.1 (hxx ▸ List.mem_map.mpr ⟨x, hx, rfl⟩)
          have hsx : ¬(s = cnameD x) := fun hh => hxs hh.symm
          simp [dictLookup, hsx]
        have hrec := ih vs (acc ++ [(s, v)]) (fun x hx => h1 x (by simp [hx]))
          hmc.2 hfr (by simpa using hlen)
        simp only [dictifyLoop, hc, hupd, hrec, rowDict, List.zipWith_cons_cons, hcd]
        rw [List.append_assoc]
        simp

theorem collect_as_dicts_eq {V : Type} (h : PluginHeader) (rows : List (List V))
    (f : List V → List (String × V))
    (hd : ∀ r ∈ rows, h.dictify r = some (f r)) :
    collect_as_dicts h rows = some (rows.map f) := by
  induction rows with
  | nil => simp [collect_as_dicts]
  | cons r rs ih =>
    have h1 := hd r (by simp)
    have h2 := ih (fun x hx => hd x (by simp [hx]))
    simp [collect_as_dicts, h1, h2]

theorem renderLoop_eq {V : Type} (rows : List (List V)) (acc : List (RenderOp V)) :
    renderLoop rows acc = acc ++ rows.map RenderOp.table_row := by
  induction rows generalizing acc with
  | nil => simp [renderLoop]
  | cons r rs ih => simp [renderLoop, ih]

/-- C8: the default render of a TypedProfileCommand first calls
table_header with the declared schema, then makes exactly one table_row
call per row yielded by collect, in collect's order, passing each row's
values positionally; the call trace contains nothing else. -/
theorem render_spec {V : Type} (h : PluginHeader) (rows : List (List V)) :
    render h rows = RenderOp.table_header h :: rows.map RenderOp.table_row := by
  simp [render, renderLoop_eq]

/-- C3: for every Producer and every sequence of rows yielded by collect
(each row non-empty, so that row[0] exists), produce yields exactly the
first element of each row, element for element, in the same order. -/
theorem produce_spec {V : Type} [Inhabited V] (rows : List (List V))
    (hne : ∀ r ∈ rows, r ≠ []) :
    produce rows = some (rows.map (fun r => r.headD default)) := by
  induction rows with
  | nil => simp [produce]
  | cons r rs ih =>
    have hr : r ≠ [] := hne r (by simp)
    have hrs : ∀ x ∈ rs, x ≠ [] := fun x hx => hne x (by simp [hx])
    cases r with
    | nil => exact absurd rfl hr
    | cons v vs => simp [produce, ih hrs]

/-- Witness for C3 at a concrete collect sequence. -/
theorem produce_spec_witness :
    produce [[1, 2], [(3 : Nat)]] = some [1, 3] := by
  have h := produce_spec (V := Nat) [[1, 2], [3]] (by decide)
  simpa using h

/-- C6: is_active is a total boolean predicate: the base Command predicate
is true for every session; a ProfileCommand with PROFILE_REQUIRED false is
unconditionally active; with PROFILE_REQUIRED true it is active exactly
when the session's resolved (possibly just autodetected) profile is
present. -/
theorem is_active_spec (s : Session) :
    Command.is_active s = true ∧
    (ProfileCommand.is_active false s).1 = true ∧
    (ProfileCommand.is_active true s).1 = (Session.readProfile s).1.isSome := by
  refine ⟨rfl, rfl, ?_⟩
  simp [ProfileCommand.is_active, Command.is_active]

/-- C5: on a session whose profile is absent and cannot be autodetected, a
PROFILE_REQUIRED plugin construction without an override raises
PluginError, while with an explicit profile override it succeeds and the
override is installed into the session as a side effect. -/
theorem ProfileCommand_init_spec (s : Session) (p : Profile)
    (habs : s.profile_obj = none) (hauto : s.profile_autodetect = none) :
    ProfileCommand.init true none s =
      Except.error (PluginFault.pluginError
        "Profile could not detected. Try specifying one explicitly.") ∧
    ProfileCommand.init true (some p) s =
      Except.ok (some p, Session.setProfile s p) ∧
    (Session.setProfile s p).profile_obj = some p := by
  refine ⟨?_, ?_, rfl⟩
  · simp [ProfileCommand.init, Session.HasParameterProfileObj,
      Session.readProfile, habs, hauto]
  · simp [ProfileCommand.init, Session.HasParameterProfileObj,
      Session.readProfile, Session.setProfile]

/-- Witness for C5 at the empty session. -/
theorem ProfileCommand_init_spec_witness :
    ProfileCommand.init true none exSessionEmpty =
      Except.error (PluginFault.pluginError
        "Profile could not detected. Try specifying one explicitly.") ∧
    ProfileCommand.init true (some exProfile) exSessionEmpty =
      Except.ok (some exProfile, Session.setProfile exSessionEmpty exProfile) := by
  have h := ProfileCommand_init_spec exSessionEmpty exProfile rfl rfl
  exact ⟨h.1, h.2.1⟩

/-- C7: the base constructor rejects any keyword argument other than
session with InvalidArgs, and rejects a missing (or None) session with
InvalidArgs; in both cases the result is a raised error, so no instance is
produced. -/
theorem Command_init_spec (kwargs : List (String × KwVal)) :
    (∀ k v, (k, v) ∈ kwargs → ¬(k = "session") →
      Command.init kwargs =
        Except.error (PluginFault.invalidArgs "Invalid arguments")) ∧
    (popSession kwargs = none →
      isInvalidArgsErr (Command.init kwargs) = true) := by
  constructor
  · intro k v hmem hk
    have hfmem : (k, v) ∈ otherKwargs kwargs := by
      rw [otherKwargs, List.mem_filter]
      exact ⟨hmem, by simp [hk]⟩
    cases hf : otherKwargs kwargs with
    | nil => rw [hf] at hfmem; simp at hfmem
    | cons a rest => simp [Command.init, hf]
  · intro hsess
    cases hf : otherKwargs kwargs with
    | nil => simp [Command.init, hf, hsess, isInvalidArgsErr]
    | cons a rest => simp [Command.init, hf, isInvalidArgsErr]

/-- Witness for C7: a bogus keyword argument, and a missing session. -/
theorem Command_init_spec_witness :
    Command.init [("bogus", some exSession)] =
      Except.error (PluginFault.invalidArgs "Invalid arguments") ∧
    isInvalidArgsErr (Command.init []) = true := by
  refine ⟨?_, ?_⟩
  · exact (Command_init_spec [("bogus", some exSession)]).1 "bogus"
      (some exSession) (by simp) (by decide)
  · exact (Command_init_spec []).2 rfl

/-- C1: GetActivePlugin raises RuntimeError when more than one stored
implementation of the name reports is_active true for the session, returns
the absent sentinel when none does, and returns exactly the single active
entry's metadata (an entry stored under the name whose predicate holds)
when exactly one does. -/
theorem GetActivePlugin_spec (db : List (String × List CommandMetadata))
    (s : Session) (plugin_name : String) :
    ((activeResults db s plugin_name).length > 1 →
      GetActivePlugin db s plugin_name =
        Except.error (PluginFault.runtimeError
          ("Multiple plugin implementations for " ++ plugin_name))) ∧
    (activeResults db s plugin_name = [] →
      GetActivePlugin db s plugin_name = Except.ok none) ∧
    (∀ m, activeResults db s plugin_name = [m] →
      GetActivePlugin db s plugin_name = Except.ok (some m) ∧
      m.plugin_cls.is_active s = true ∧ m ∈ dbEntries db plugin_name) := by
    refine ⟨?_, ?_, ?_⟩
    · intro h1
      simp [GetActivePlugin, h1]
    · intro h0
      simp [GetActivePlugin, h0]
    · intro m hm
      have hmem : m ∈ activeResults db s plugin_name := by
        rw [hm]; exact List.mem_singleton_self m
      have := List.mem_filter.mp hmem
      exact ⟨by simp [GetActivePlugin, hm], this.2, this.1⟩

/-- Witness for C1: the spec's scenario with classes A (inactive) and B
(active) sharing the name foo, plus the ambiguous and the empty variants. -/
theorem GetActivePlugin_spec_witness :
    GetActivePlugin exDb exSession "foo" = Except.ok (some exMetaB) ∧
    GetActivePlugin exDbBoth exSession "foo" =
      Except.error (PluginFault.runtimeError
        ("Multiple plugin implementations for " ++ "foo")) ∧
    GetActivePlugin exDbNone exSession "foo" = Except.ok none := by
  refine ⟨((GetActivePlugin_spec exDb exSession "foo").2.2 exMetaB rfl).1,
    (GetActivePlugin_spec exDbBoth exSession "foo").1 (by decide),
    (GetActivePlugin_spec exDbNone exSession "foo").2.1 rfl⟩

/-- C9: for a column key present in by_cname, reflect returns the literal
declared type when it is a concrete type object, None when no type is
declared, and the profile's object_classes resolution for a declared
(non-empty) string type name, which is None exactly when the profile does
not define that name. -/
theorem reflect_spec (h : PluginHeader) (profile : Profile) (member : String)
    (column : Column) (hcol : dictLookup h.by_cname member = some column) :
    (∀ t, column.type = some (ColType.concrete t) →
      reflect h profile member = Except.ok (some t)) ∧
    (column.type = none → reflect h profile member = Except.ok none) ∧
    (∀ s, column.type = some (ColType.byName s) → ¬(s = "") →
      reflect h profile member =
        Except.ok (dictLookup profile.object_classes s)) := by
  refine ⟨?_, ?_, ?_⟩
  · intro t ht
    simp [reflect, hcol, ht]
  · intro ht
    simp [reflect, hcol, ht]
  · intro s ht hs
    simp [reflect, hcol, ht, hs]

/-- Witness for C9 on the example schema: a string-typed column resolved
through the profile, and an untyped column yielding None. -/
theorem reflect_spec_witness :
    reflect exHeader exProfile "offset" = Except.ok (some (ConcreteType.mk 1)) ∧
    reflect exHeader exProfile "name" = Except.ok none := by
  constructor
  · have h := (reflect_spec exHeader exProfile "offset" colOffset rfl).2.2
      "address" rfl (by decide)
    exact h.trans (by rfl)
  · exact (reflect_spec exHeader exProfile "name" colName rfl).2.1 rfl

/-- C2: PluginHeader construction fails whenever two columns share the
same cname, fails whenever some column has no cname, and succeeds whenever
every column has a (non-empty) cname and all cnames are distinct — in
which case all_names is exactly the union of the set of cnames and the set
of provided (non-empty) human names. -/
theorem PluginHeader_init_spec (columns : List Column) :
    (∀ i j ci cj s, i < j → columns.get? i = some ci → columns.get? j = some cj →
      ci.cname = some s → cj.cname = some s →
      isErr (PluginHeader.init columns) = true) ∧
    (∀ c ∈ columns, c.cname = none → isErr (PluginHeader.init columns) = true) ∧
    ((∀ c ∈ columns, hasCname c = true) → (columns.map cnameD).Nodup →
      ∃ h, PluginHeader.init columns = Except.ok h ∧
        ∀ s, (s ∈ h.all_names ↔
          (∃ c ∈ columns, c.cname = some s) ∨
          (∃ c ∈ columns, c.name = some s ∧ ¬(s = "")))) := by
  refine ⟨?_, ?_, ?_⟩
  · intro i j ci cj s hij hgi hgj hci hcj
    cases hinit : PluginHeader.init columns with
    | error e => simp [isErr]
    | ok hh =>
      exfalso
      obtain ⟨hloop, _⟩ := init_ok_loop columns hh hinit
      have hnd := (headerLoop_ok_conditions columns [] [] _ _ hloop).2.1
      have hgi2 : (columns.map cnameD).get? i = some s := by
        rw [List.get?_map, hgi]
        simp [cnameD, hci]
      have hgj2 : (columns.map cnameD).get? j = some s := by
        rw [List.get?_map, hgj]
        simp [cnameD, hcj]
      have hilen : i < (columns.map cnameD).length := by
        by_contra hge
        rw [List.get?_eq_none.mpr (Nat.le_of_not_lt hge)] at hgi2
        cases hgi2
      have := List.get?_inj hilen hnd (hgi2.trans hgj2.symm)
      omega
  · intro c hcmem hcn
    cases hinit : PluginHeader.init columns with
    | error e => simp [isErr]
    | ok hh =>
      exfalso
      obtain ⟨hloop, _⟩ := init_ok_loop columns hh hinit
      have h1 := (headerLoop_ok_conditions columns [] [] _ _ hloop).1 c hcmem
      simp [hasCname, hcn] at h1
  · intro h1 h2
    obtain ⟨bc2, bn2, hok⟩ :=
      headerLoop_ok_of_conditions columns [] [] h1 h2
        (fun c _ => dictLookup_nil (cnameD c))
    refine ⟨⟨columns, bc2, bn2⟩, by simp [PluginHeader.init, hok], ?_⟩
    intro s
    have hk := headerLoop_keys columns [] [] bc2 bn2 hok s
    have e1 := hk.1
    have e2 := hk.2
    simp only [dictLookup_nil, Option.isSome_none, Bool.false_eq_true,
      false_or] at e1 e2
    rw [PluginHeader.all_names]
    simp only [List.mem_append]
    rw [mem_keys_iff_lookup_isSome, mem_keys_iff_lookup_isSome, e1, e2]

/-- Witness for C2: a duplicated cname fails, a missing cname fails, and
the example schema succeeds with all_names holding its cnames and human
names. -/
theorem PluginHeader_init_spec_witness :
    isErr (PluginHeader.init dupColumns) = true ∧
    isErr (PluginHeader.init missColumns) = true ∧
    PluginHeader.init exColumns = Except.ok exHeader ∧
    "offset" ∈ exHeader.all_names ∧ "Offset" ∈ exHeader.all_names := by
  refine ⟨?_, ?_, rfl, ?_, ?_⟩
  · exact (PluginHeader_init_spec dupColumns).1 0 1 { cname := some "a" }
      { cname := some "a" } "a" (by omega) rfl rfl rfl rfl
  · exact (PluginHeader_init_spec missColumns).2.1 { name := some "X" }
      (by simp [missColumns]) rfl
  · obtain ⟨h, hok, hiff⟩ :=
      (PluginHeader_init_spec exColumns).2.2 (by decide) (by decide)
    have hexp : PluginHeader.init exColumns = Except.ok exHeader := rfl
    have hhe : h = exHeader := by
      rw [hexp] at hok
      exact (Except.ok.inj hok).symm
    subst hhe
    exact (hiff "offset").mpr (Or.inl ⟨colOffset, by simp [exColumns], rfl⟩)
  · obtain ⟨h, hok, hiff⟩ :=
      (PluginHeader_init_spec exColumns).2.2 (by decide) (by decide)
    have hexp : PluginHeader.init exColumns = Except.ok exHeader := rfl
    have hhe : h = exHeader := by
      rw [hexp] at hok
      exact (Except.ok.inj hok).symm
    subst hhe
    exact (hiff "Offset").mpr (Or.inr ⟨colOffset, by simp [exColumns],
      rfl, by decide⟩)

/-- C4 (amended): for a schema built by PluginHeader and rows whose length
equals the schema's column count, collect_as_dicts yields exactly one dict
per collected row, in collect's order, each dict binding the schema's
cnames to the row's positional values in column order — so each dict's key
list is exactly the schema's cname list. The original claim quantified
over any schema/row combination; it fails for rows shorter than the
schema (see the counterexample), so the arity condition is required. -/
theorem collect_as_dicts_spec {V : Type} (columns : List Column)
    (h : PluginHeader) (rows : List (List V))
    (hinit : PluginHeader.init columns = Except.ok h)
    (hlen : ∀ r ∈ rows, r.length = columns.length) :
    collect_as_dicts h rows = some (rows.map (rowDict columns)) ∧
    (rows.map (rowDict columns)).length = rows.length ∧
    (∀ r ∈ rows, (rowDict columns r).map Prod.fst = columns.map cnameD) := by
  obtain ⟨hloop, hhdr⟩ := init_ok_loop columns h hinit
  obtain ⟨h1, h2, _⟩ := headerLoop_ok_conditions columns [] [] _ _ hloop
  refine ⟨?_, by simp, fun r hr => rowDict_keys columns r (hlen r hr)⟩
  apply collect_as_dicts_eq
  intro r hr
  rw [PluginHeader.dictify, hhdr]
  have := dictifyLoop_eq columns r [] h1 h2
    (fun c _ => dictLookup_nil (cnameD c)) (hlen r hr)
  simpa using this

/-- Witness for C4's amended theorem: the spec's example schema and rows. -/
theorem collect_as_dicts_spec_witness :
    collect_as_dicts exHeader [[(0x1000 : Nat), 0xA], [0x2000, 0xB]] =
      some [[("offset", 0x1000), ("name", 0xA)],
            [("offset", 0x2000), ("name", 0xB)]] := by
  have h := (collect_as_dicts_spec exColumns exHeader
    [[(0x1000 : Nat), 0xA], [0x2000, 0xB]] rfl (by decide)).1
  exact h.trans (by rfl)

/-- C4 counterexample: with the two-column example schema and one
one-element row, collect_as_dicts succeeds but yields a dict whose key set
omits the second cname, refuting the claim as quantified over any
schema/row combination. -/
theorem collect_as_dicts_counterexample :
    PluginHeader.init exColumns = Except.ok exHeader ∧
    collect_as_dicts exHeader [[(5 : Nat)]] = some [[("offset", 5)]] ∧
    "name" ∈ exColumns.map cnameD ∧
    ¬("name" ∈ ([("offset", (5 : Nat))] : List (String × Nat)).map Prod.fst) := by
  exact ⟨rfl, rfl, by decide, by decide⟩

/-- C10: reflect looks columns up by cname only: a key absent from
by_cname raises KeyError even when it equals some column's human name,
whereas find_column falls back to the by_name lookup for exactly such
keys. -/
theorem reflect_keyerror_spec (h : PluginHeader) (profile : Profile)
    (member : String) (hnone : dictLookup h.by_cname member = none) :
    reflect h profile member =
      Except.error (PluginFault.keyError ("Plugin has no column " ++ member)) ∧
    PluginHeader.find_column h member = dictLookup h.by_name member := by
  constructor
  · simp [reflect, hnone]
  · simp [PluginHeader.find_column, hnone]

/-- Witness for C10: "Offset" is a human name, not a cname, of the example
schema; reflect raises KeyError on it while find_column resolves it. -/
theorem reflect_keyerror_spec_witness :
    reflect exHeader exProfile "Offset" =
      Except.error (PluginFault.keyError ("Plugin has no column " ++ "Offset")) ∧
    PluginHeader.find_column exHeader "Offset" = some colOffset := by
  have h := reflect_keyerror_spec exHeader exProfile "Offset" rfl
  exact ⟨h.1, h.2.trans (by rfl)⟩

end Rekall
